import Mathlib

/-!
Verification of the interval-refinement genetic optimizer in `GeneticNN.py`.

Real numbers (Python floats) are modelled as `Rat`; Python booleans used in
arithmetic are modelled as `Bool` with an explicit `if _ then 1 else 0`;
Python list slicing `v[i : i+n]` is `(v.drop i).take n`; a Python function
that can raise is modelled with `Option`/`Except`, where `none`/`.error`
marks the raise.  The external genetic-search engine (`GeneticSearch`,
not part of this repository) is abstracted as the per-round sequence of
`(bestIndividual, bestFitness)` results it hands back to the optimizer.
-/

/-- `SearchInterval = namedtuple('SearchInterval', ['low', 'high'])`. -/
structure SearchInterval where
  low : Rat
  high : Rat
deriving DecidableEq

/-- The `Config` class of `GeneticNN.py` (class attributes
`numOfIntervalPartitions`, `maxNumOfImproveTries`, `populationSize`). -/
structure Config where
  numOfIntervalPartitions : Int
  maxNumOfImproveTries : Nat
  populationSize : Nat
deriving DecidableEq

/-- The default `Config()` values: 9 partitions, 15 improve tries, population 150. -/
def defaultConfig : Config :=
  { numOfIntervalPartitions := 9, maxNumOfImproveTries := 15, populationSize := 150 }

/-- The state a `GeneticNN` object holds after `__init__` (the `logFile`
handle is omitted: it is only ever passed to the external engine and to
`print`). -/
structure GeneticNN where
  searchInterval : SearchInterval
  config : Config
deriving DecidableEq

/-- `GeneticNN.__init__`: three plain attribute assignments.  The body
contains no validation and no raise statement, so construction always
succeeds; the `Except` codomain records that there is no error path. -/
def GeneticNN.init (interval : SearchInterval) (config : Config) :
    Except String GeneticNN :=
  Except.ok { searchInterval := interval, config := config }

/-- `GeneticNN.getValueInInterval(interval, side, numOfIntervalPartitions)`:
`diff = high - low`; `lowSide = low + diff/(numOfIntervalPartitions*2)`;
`lowToHighSide = diff/numOfIntervalPartitions`;
returns `lowSide + side * lowToHighSide` (Python multiplies the boolean as 0/1). -/
def GeneticNN.getValueInInterval (interval : SearchInterval) (side : Bool)
    (numOfIntervalPartitions : Int) : Rat :=
  let diff := interval.high - interval.low
  let lowSide := interval.low + diff / ((numOfIntervalPartitions : Rat) * 2)
  let lowToHighSide := diff / (numOfIntervalPartitions : Rat)
  lowSide + (if side then (1 : Rat) else 0) * lowToHighSide

/-- `GeneticNN.getPoint(individual, intervals, numOfIntervalPartitions)`:
a list comprehension over `zip(intervals, individual)`; Python `zip`
silently stops at the shorter sequence. -/
def GeneticNN.getPoint (individual : List Bool) (intervals : List SearchInterval)
    (numOfIntervalPartitions : Int) : List Rat :=
  (intervals.zip individual).map fun p =>
    GeneticNN.getValueInInterval p.1 p.2 numOfIntervalPartitions

/-- `GeneticNN.getSubInterval(self, interval, subIntervalIdx)`:
`subIntervalDelta = (high - low)/numOfIntervalPartitions`;
`low' = low + subIntervalIdx * subIntervalDelta`; returns
`SearchInterval(low', low' + subIntervalDelta)`.  The partition count is
read from `self.config`. -/
def GeneticNN.getSubInterval (g : GeneticNN) (interval : SearchInterval)
    (subIntervalIdx : Nat) : SearchInterval :=
  let subIntervalDelta :=
    (interval.high - interval.low) / (g.config.numOfIntervalPartitions : Rat)
  let low := interval.low + (subIntervalIdx : Rat) * subIntervalDelta
  { low := low, high := low + subIntervalDelta }

/-- A `GeneticNN` whose config uses 5 interval partitions, for the concrete
scenarios of the spec. -/
def gP5 : GeneticNN :=
  { searchInterval := { low := 0, high := 10 },
    config := { numOfIntervalPartitions := 5, maxNumOfImproveTries := 15,
                populationSize := 150 } }

/-- **C3.** For every interval, boolean side and partition count `P > 0`,
`getValueInInterval` returns `low + (high-low)/(2P)` for `side = false` and
`low + (high-low)/(2P) + (high-low)/P` for `side = true`; in particular on
the interval `(0,10)` with `P = 5` it returns `1` and `3`. -/
theorem getValueInInterval_formula :
    (∀ (i : SearchInterval) (side : Bool) (P : Int), 0 < P →
      GeneticNN.getValueInInterval i side P =
        if side then
          i.low + (i.high - i.low) / (2 * (P : Rat)) + (i.high - i.low) / (P : Rat)
        else
          i.low + (i.high - i.low) / (2 * (P : Rat))) ∧
    GeneticNN.getValueInInterval { low := 0, high := 10 } false 5 = 1 ∧
    GeneticNN.getValueInInterval { low := 0, high := 10 } true 5 = 3 := by
  refine ⟨fun i side P _ => ?_,
    by norm_num [GeneticNN.getValueInInterval],
    by norm_num [GeneticNN.getValueInInterval]⟩
  cases side <;> simp [GeneticNN.getValueInInterval] <;> ring

/-- Witness for the quantified part of `getValueInInterval_formula`,
at the interval `(2, 6)`, `side = true`, `P = 2`. -/
theorem getValueInInterval_formula_witness :
    (0 : Int) < 2 ∧
      GeneticNN.getValueInInterval { low := 2, high := 6 } true 2 =
        (if true then
          (2 : Rat) + ((6 : Rat) - 2) / (2 * ((2 : Int) : Rat)) + ((6 : Rat) - 2) / ((2 : Int) : Rat)
        else
          (2 : Rat) + ((6 : Rat) - 2) / (2 * ((2 : Int) : Rat))) :=
  ⟨by decide,
    getValueInInterval_formula.1 { low := 2, high := 6 } true 2 (by decide)⟩

/-- **C4.** For every interval, partition count `P > 0` (taken from the
object's config) and sub-partition index, `getSubInterval` returns the
1/P-sized slice `(low + idx*(high-low)/P, low + (idx+1)*(high-low)/P)`;
in particular with `P = 5` on `(0,10)`, index 0 gives `(0,2)` and index 1
gives `(2,4)`. -/
theorem getSubInterval_formula :
    (∀ (g : GeneticNN) (i : SearchInterval) (idx : Nat),
      0 < g.config.numOfIntervalPartitions →
      g.getSubInterval i idx =
        { low := i.low + (idx : Rat) * (i.high - i.low) / (g.config.numOfIntervalPartitions : Rat),
          high := i.low + ((idx : Rat) + 1) * (i.high - i.low) / (g.config.numOfIntervalPartitions : Rat) }) ∧
    gP5.getSubInterval { low := 0, high := 10 } 0 = { low := 0, high := 2 } ∧
    gP5.getSubInterval { low := 0, high := 10 } 1 = { low := 2, high := 4 } := by
  refine ⟨fun g i idx _ => ?_,
    by simp only [GeneticNN.getSubInterval, gP5, SearchInterval.mk.injEq]; norm_num,
    by simp only [GeneticNN.getSubInterval, gP5, SearchInterval.mk.injEq]; norm_num⟩
  simp only [GeneticNN.getSubInterval, SearchInterval.mk.injEq]
  constructor <;> ring

/-- Witness for the quantified part of `getSubInterval_formula`, at the
interval `(0, 10)`, index 3, with the 5-partition config. -/
theorem getSubInterval_formula_witness :
    (0 : Int) < gP5.config.numOfIntervalPartitions ∧
      gP5.getSubInterval { low := 0, high := 10 } 3 =
        { low := (0 : Rat) + ((3 : Nat) : Rat) * ((10 : Rat) - 0) / ((gP5.config.numOfIntervalPartitions : Int) : Rat),
          high := (0 : Rat) + (((3 : Nat) : Rat) + 1) * ((10 : Rat) - 0) / ((gP5.config.numOfIntervalPartitions : Int) : Rat) } :=
  ⟨by decide,
    getSubInterval_formula.1 gP5 { low := 0, high := 10 } 3 (by decide)⟩

/-- Evaluation of `getValueInInterval` at `side = false`. -/
theorem getValueInInterval_false (i : SearchInterval) (P : Int) :
    GeneticNN.getValueInInterval i false P =
      i.low + (i.high - i.low) / ((P : Rat) * 2) := by
  simp [GeneticNN.getValueInInterval]

/-- Evaluation of `getValueInInterval` at `side = true`. -/
theorem getValueInInterval_true (i : SearchInterval) (P : Int) :
    GeneticNN.getValueInInterval i true P =
      i.low + (i.high - i.low) / ((P : Rat) * 2) + (i.high - i.low) / (P : Rat) := by
  simp [GeneticNN.getValueInInterval]

/-- **C9, counterexample.**  The claim quantifies over all intervals with
`low ≤ high`, but at a zero-width interval (`low = high`) the value for
`side = true` equals `low`, which does not lie strictly above
`low + (high-low)/P`: the claimed half-open interval
`(low + (high-low)/P, low + 2(high-low)/P]` is empty there. -/
theorem valueFor_strict_bounds_counterexample :
    GeneticNN.getValueInInterval { low := 0, high := 0 } true 1 = 0 ∧
      ¬ ((0 : Rat) + ((0 : Rat) - 0) / ((1 : Int) : Rat) <
          GeneticNN.getValueInInterval { low := 0, high := 0 } true 1) := by
  norm_num [GeneticNN.getValueInInterval]

/-- **C9, amended.**  For every interval with `low < high` (rather than
`low ≤ high`) and every `P > 0`: `getValueInInterval i false P` lies
strictly between `low` and `low + (high-low)/P`, `getValueInInterval i
true P` lies strictly between `low + (high-low)/P` and
`low + 2(high-low)/P`, and each value equals the midpoint of its
1/P-sized slice. -/
theorem valueFor_bounds_amended (i : SearchInterval) (P : Int)
    (hlt : i.low < i.high) (hP : 0 < P) :
    (i.low < GeneticNN.getValueInInterval i false P ∧
      GeneticNN.getValueInInterval i false P < i.low + (i.high - i.low) / (P : Rat)) ∧
    (i.low + (i.high - i.low) / (P : Rat) < GeneticNN.getValueInInterval i true P ∧
      GeneticNN.getValueInInterval i true P < i.low + 2 * (i.high - i.low) / (P : Rat)) ∧
    GeneticNN.getValueInInterval i false P =
      (i.low + (i.low + (i.high - i.low) / (P : Rat))) / 2 ∧
    GeneticNN.getValueInInterval i true P =
      ((i.low + (i.high - i.low) / (P : Rat)) +
        (i.low + 2 * (i.high - i.low) / (P : Rat))) / 2 := by
  have hP' : (0 : Rat) < (P : Rat) := by exact_mod_cast hP
  have hP0 : ((P : Rat)) ≠ 0 := ne_of_gt hP'
  have hd : (0 : Rat) < i.high - i.low := by linarith
  have h1 : (0 : Rat) < (i.high - i.low) / ((P : Rat) * 2) := by positivity
  have h2 : (i.high - i.low) / ((P : Rat) * 2) < (i.high - i.low) / (P : Rat) :=
    div_lt_div_of_pos_left hd hP' (by linarith)
  have h3 : 2 * (i.high - i.low) / (P : Rat) = 2 * ((i.high - i.low) / (P : Rat)) := by
    ring
  rw [getValueInInterval_false, getValueInInterval_true]
  refine ⟨⟨by linarith, by linarith⟩, ⟨by linarith, by linarith⟩, ?_, ?_⟩ <;>
    field_simp <;> ring

/-- Witness for `valueFor_bounds_amended` at the interval `(0, 2)`, `P = 1`. -/
theorem valueFor_bounds_amended_witness :
    ((0 : Rat) < 2) ∧ ((0 : Int) < 1) ∧
      ((0 : Rat) < GeneticNN.getValueInInterval { low := 0, high := 2 } false 1 ∧
        GeneticNN.getValueInInterval { low := 0, high := 2 } false 1 <
          0 + ((2 : Rat) - 0) / ((1 : Int) : Rat)) :=
  ⟨by norm_num, by norm_num,
    (valueFor_bounds_amended { low := 0, high := 2 } 1 (by norm_num) (by norm_num)).1⟩

/-- **C10.**  The scalar a candidate is scored at is the center of the
sub-interval kept for the next round: for `low ≤ high` and `P > 0`,
`getValueInInterval i s P` equals the midpoint of
`getSubInterval i (if s then 1 else 0)` (the narrowing the optimizer
performs when the winning bit for this parameter is `s`). -/
theorem value_is_midpoint_of_narrowed (g : GeneticNN) (i : SearchInterval) (s : Bool)
    (hle : i.low ≤ i.high) (hP : 0 < g.config.numOfIntervalPartitions) :
    GeneticNN.getValueInInterval i s g.config.numOfIntervalPartitions =
      ((g.getSubInterval i (if s then 1 else 0)).low +
        (g.getSubInterval i (if s then 1 else 0)).high) / 2 := by
  have hP' : (0 : Rat) < (g.config.numOfIntervalPartitions : Rat) := by exact_mod_cast hP
  have hP0 : ((g.config.numOfIntervalPartitions : Rat)) ≠ 0 := ne_of_gt hP'
  cases s <;>
    simp only [GeneticNN.getSubInterval, getValueInInterval_false,
      getValueInInterval_true, if_true, if_false, Nat.cast_one, Nat.cast_zero] <;>
    field_simp <;> ring

/-- Witness for `value_is_midpoint_of_narrowed` at `gP5`, interval `(0, 10)`,
`s = true`. -/
theorem value_is_midpoint_of_narrowed_witness :
    ((0 : Rat) ≤ 10) ∧ ((0 : Int) < gP5.config.numOfIntervalPartitions) ∧
      GeneticNN.getValueInInterval { low := 0, high := 10 } true
          gP5.config.numOfIntervalPartitions =
        ((gP5.getSubInterval { low := 0, high := 10 } (if true then 1 else 0)).low +
          (gP5.getSubInterval { low := 0, high := 10 } (if true then 1 else 0)).high) / 2 :=
  ⟨by norm_num, by decide,
    value_is_midpoint_of_narrowed gP5 { low := 0, high := 10 } true
      (by norm_num) (by decide)⟩

/-- **C6, counterexample.**  `getPoint` does not raise when the individual
and the intervals differ in length: with a length-1 individual and two
intervals it returns a well-defined length-1 point (Python `zip` silently
stops at the shorter sequence). -/
theorem getPoint_length_mismatch_counterexample :
    ([false] : List Bool).length ≠
        ([{ low := 0, high := 2 }, { low := 4, high := 6 }] : List SearchInterval).length ∧
      GeneticNN.getPoint [false] [{ low := 0, high := 2 }, { low := 4, high := 6 }] 1 = [1] := by
  constructor
  · decide
  · norm_num [GeneticNN.getPoint, GeneticNN.getValueInInterval]

/-- **C6, amended.**  `getPoint` never errors on a length mismatch: it
truncates to the shorter of the two sequences, returning a point of length
`min |intervals| |individual|` whose `k`-th element is
`getValueInInterval` of the `k`-th interval and the `k`-th bit.  When the
lengths agree this is length-preserving; the function is a pure Lean
function, hence deterministic and side-effect free. -/
theorem getPoint_truncates :
    (∀ (ind : List Bool) (ivs : List SearchInterval) (P : Int),
      (GeneticNN.getPoint ind ivs P).length = min ivs.length ind.length) ∧
    (∀ (ind : List Bool) (ivs : List SearchInterval) (P : Int) (k : Nat)
      (h1 : k < ivs.length) (h2 : k < ind.length),
      (GeneticNN.getPoint ind ivs P)[k]? =
        some (GeneticNN.getValueInInterval ivs[k] ind[k] P)) := by
  constructor
  · intro ind ivs P
    simp [GeneticNN.getPoint, List.length_zip]
  · intro ind ivs P k h1 h2
    have hk : k < (GeneticNN.getPoint ind ivs P).length := by
      simp [GeneticNN.getPoint, List.length_zip]
      omega
    rw [List.getElem?_eq_getElem hk]
    simp [GeneticNN.getPoint, List.getElem_zip]

/-- Witness for `getPoint_truncates` at a length-1 individual and a
length-1 interval list. -/
theorem getPoint_truncates_witness :
    (GeneticNN.getPoint [true] [{ low := 0, high := 2 }] 1).length = min 1 1 ∧
      (0 : Nat) < 1 ∧
      (GeneticNN.getPoint [true] [{ low := 0, high := 2 }] 1)[0]? =
        some (GeneticNN.getValueInInterval
          (([{ low := 0, high := 2 }] : List SearchInterval)[0])
          (([true] : List Bool)[0]) 1) :=
  ⟨getPoint_truncates.1 [true] [{ low := 0, high := 2 }] 1, by decide,
    getPoint_truncates.2 [true] [{ low := 0, high := 2 }] 1 0 (by decide) (by decide)⟩

/-- A numpy array as far as this code observes it: a shape and the
flat (row-major) data.  `np.reshape` never reorders data. -/
structure NPArray where
  shape : List Nat
  data : List Rat
deriving DecidableEq

/-- `np.reshape(v, shape)` for a 1-D input `v` and an all-explicit `shape`:
succeeds exactly when the number of elements matches the product of the
shape, otherwise raises `ValueError` (modelled as `none`). -/
def npReshape (v : List Rat) (shape : List Nat) : Option NPArray :=
  if v.length = shape.prod then some { shape := shape, data := v } else none

/-- The loop body of `NNWeightsEvaluator.transformWeightVecToList`: walk the
zipped `(wShape, wSize)` pairs keeping a running start index `curIdx`,
reshape the slice `weightsVec[curIdx : curIdx + wSize]` to `wShape`, and
advance `curIdx` by `wSize`.  Python slicing clamps at the end of the
list, hence `(drop curIdx).take wSize`; a reshape failure aborts the
whole call. -/
def transformGo (weightsVec : List Rat) :
    List (List Nat × Nat) → Nat → Option (List NPArray)
  | [], _ => some []
  | (wShape, wSize) :: rest, curIdx => do
    let curWeight ← npReshape ((weightsVec.drop curIdx).take wSize) wShape
    let tail ← transformGo weightsVec rest (curIdx + wSize)
    pure (curWeight :: tail)

/-- `NNWeightsEvaluator.transformWeightVecToList(self, weightsVec)`:
`for wShape, wSize in zip(self.weightsShapesList, self.weightsSizesList)`
starting from `curIdx = 0`. -/
def transformWeightVecToList (weightsShapesList : List (List Nat))
    (weightsSizesList : List Nat) (weightsVec : List Rat) : Option (List NPArray) :=
  transformGo weightsVec (weightsShapesList.zip weightsSizesList) 0

/-- Structural reformulation of `transformGo`: slice from the front of the
remaining vector instead of keeping a running index. -/
def transformSlices : List Rat → List (List Nat × Nat) → Option (List NPArray)
  | _, [] => some []
  | v, (wShape, wSize) :: rest => do
    let curWeight ← npReshape (v.take wSize) wShape
    let tail ← transformSlices (v.drop wSize) rest
    pure (curWeight :: tail)

/-- The total element count declared by a layout (sum of the `wSize`
entries that are actually consumed, i.e. over the zipped pairs). -/
def totalSize (weightsShapesList : List (List Nat))
    (weightsSizesList : List Nat) : Nat :=
  ((weightsShapesList.zip weightsSizesList).map Prod.snd).sum

/-- A layout is well-formed when each declared element count equals the
product of its declared shape — which is how the model produces them
(`tf.shape` paired with `tf.size`). -/
def LayoutWF (pairs : List (List Nat × Nat)) : Prop :=
  ∀ p ∈ pairs, p.1.prod = p.2

instance (pairs : List (List Nat × Nat)) : Decidable (LayoutWF pairs) :=
  inferInstanceAs (Decidable (∀ p ∈ pairs, p.1.prod = p.2))

theorem transformGo_eq_slices (v : List Rat) (pairs : List (List Nat × Nat)) :
    ∀ curIdx, transformGo v pairs curIdx = transformSlices (v.drop curIdx) pairs := by
  induction pairs with
  | nil => intro curIdx; rfl
  | cons p rest ih =>
    intro curIdx
    obtain ⟨sh, sz⟩ := p
    simp only [transformGo, transformSlices, ih, List.drop_drop, Nat.add_comm]

theorem transformSlices_short (pairs : List (List Nat × Nat)) :
    ∀ v : List Rat, LayoutWF pairs → v.length < (pairs.map Prod.snd).sum →
      transformSlices v pairs = none := by
  induction pairs with
  | nil => intro v _ h; simp at h
  | cons p rest ih =>
    intro v hwf hlen
    obtain ⟨sh, sz⟩ := p
    have hsh : sh.prod = sz := hwf ⟨sh, sz⟩ (by simp)
    simp only [List.map_cons, List.sum_cons] at hlen
    by_cases hv : v.length < sz
    · have hne : (v.take sz).length ≠ sh.prod := by
        rw [hsh, List.length_take]
        omega
      have hnone : npReshape (v.take sz) sh = none := by
        rw [npReshape, if_neg hne]
      simp [transformSlices, hnone]
    · have hrest := ih (v.drop sz)
        (fun q hq => hwf q (List.mem_cons_of_mem _ hq))
        (by rw [List.length_drop]; omega)
      cases h : npReshape (v.take sz) sh <;>
        simp [transformSlices, h, hrest]

theorem transformSlices_take (pairs : List (List Nat × Nat)) :
    ∀ v : List Rat, (pairs.map Prod.snd).sum ≤ v.length →
      transformSlices (v.take ((pairs.map Prod.snd).sum)) pairs =
        transformSlices v pairs := by
  induction pairs with
  | nil => intro v _; rfl
  | cons p rest ih =>
    intro v hlen
    obtain ⟨sh, sz⟩ := p
    simp only [List.map_cons, List.sum_cons] at hlen ⊢
    simp only [transformSlices]
    have htake : (v.take (sz + (rest.map Prod.snd).sum)).take sz = v.take sz := by
      rw [List.take_take]
      congr 1
      omega
    have hdrop : (v.take (sz + (rest.map Prod.snd).sum)).drop sz =
        (v.drop sz).take ((rest.map Prod.snd).sum) := by
      rw [List.drop_take]
      congr 1
      omega
    rw [htake, hdrop, ih (v.drop sz) (by rw [List.length_drop]; omega)]

theorem transformSlices_roundtrip (pairs : List (List Nat × Nat)) :
    ∀ v : List Rat, LayoutWF pairs → v.length = (pairs.map Prod.snd).sum →
      ∃ groups, transformSlices v pairs = some groups ∧
        (groups.map NPArray.data).flatten = v := by
  induction pairs with
  | nil =>
    intro v _ hlen
    simp only [List.map_nil, List.sum_nil] at hlen
    exact ⟨[], rfl, by simp [List.length_eq_zero.mp hlen]⟩
  | cons p rest ih =>
    intro v hwf hlen
    obtain ⟨sh, sz⟩ := p
    have hsh : sh.prod = sz := hwf ⟨sh, sz⟩ (by simp)
    simp only [List.map_cons, List.sum_cons] at hlen
    have hreshape : npReshape (v.take sz) sh = some { shape := sh, data := v.take sz } := by
      have : (v.take sz).length = sh.prod := by
        rw [hsh, List.length_take]
        omega
      simp [npReshape, this]
    obtain ⟨groups, hg, hflat⟩ := ih (v.drop sz)
      (fun q hq => hwf q (List.mem_cons_of_mem _ hq))
      (by rw [List.length_drop]; omega)
    refine ⟨{ shape := sh, data := v.take sz } :: groups, ?_, ?_⟩
    · simp [transformSlices, hreshape, hg]
    · simp [hflat, List.take_append_drop]

/-- **C5, counterexample.**  A point strictly longer than the layout's
total element count is not rejected: with layout `[(shape=[1], count=1)]`
(total count 1) and the length-2 point `[0, 0]`, the reshape succeeds and
silently ignores the trailing element. -/
theorem transform_long_counterexample :
    totalSize [[1]] [1] = 1 ∧ ([0, 0] : List Rat).length = 2 ∧
      transformWeightVecToList [[1]] [1] [0, 0] =
        some [{ shape := [1], data := [0] }] := by
  refine ⟨rfl, rfl, ?_⟩
  rfl

/-- **C5, amended.**  A point strictly *shorter* than a well-formed
layout's total element count fails fast (the first undersized slice makes
`np.reshape` raise), but a point strictly *longer* is silently truncated:
the result is exactly the result on the first `totalSize` elements, the
trailing elements being ignored. -/
theorem transform_mismatch_behavior :
    (∀ (shapes : List (List Nat)) (sizes : List Nat) (v : List Rat),
      LayoutWF (shapes.zip sizes) → v.length < totalSize shapes sizes →
      transformWeightVecToList shapes sizes v = none) ∧
    (∀ (shapes : List (List Nat)) (sizes : List Nat) (v : List Rat),
      totalSize shapes sizes ≤ v.length →
      transformWeightVecToList shapes sizes v =
        transformWeightVecToList shapes sizes (v.take (totalSize shapes sizes))) := by
  constructor
  · intro shapes sizes v hwf hlen
    rw [transformWeightVecToList, transformGo_eq_slices, List.drop_zero]
    exact transformSlices_short _ _ hwf hlen
  · intro shapes sizes v hlen
    rw [transformWeightVecToList, transformWeightVecToList,
      transformGo_eq_slices, transformGo_eq_slices, List.drop_zero, List.drop_zero]
    exact (transformSlices_take _ _ hlen).symm

/-- Witness for `transform_mismatch_behavior`: the length-1 point `[0]`
against a layout declaring 2 elements errors; the length-2 point `[0, 0]`
against a layout declaring 1 element behaves as on its 1-element prefix. -/
theorem transform_mismatch_behavior_witness :
    LayoutWF ([[2]].zip [2]) ∧ ([0] : List Rat).length < totalSize [[2]] [2] ∧
      transformWeightVecToList [[2]] [2] [0] = none ∧
      totalSize [[1]] [1] ≤ ([0, 0] : List Rat).length ∧
      transformWeightVecToList [[1]] [1] [0, 0] =
        transformWeightVecToList [[1]] [1] (([0, 0] : List Rat).take (totalSize [[1]] [1])) :=
  ⟨by decide, by decide,
    transform_mismatch_behavior.1 [[2]] [2] [0] (by decide) (by decide),
    by decide,
    transform_mismatch_behavior.2 [[1]] [1] [0, 0] (by decide)⟩

/-- **C8.**  For every well-formed layout whose element counts sum to the
point's length, reshaping succeeds and flattening the groups back in
layout order yields exactly the original point. -/
theorem transform_roundtrip (shapes : List (List Nat)) (sizes : List Nat)
    (v : List Rat) (hwf : LayoutWF (shapes.zip sizes))
    (hlen : v.length = totalSize shapes sizes) :
    ∃ groups, transformWeightVecToList shapes sizes v = some groups ∧
      (groups.map NPArray.data).flatten = v := by
  rw [transformWeightVecToList, transformGo_eq_slices, List.drop_zero]
  exact transformSlices_roundtrip _ v hwf hlen

/-- Witness for `transform_roundtrip` at the spec's end-to-end layout
`[(shape=(2,2), count=4), (shape=(2,), count=2)]` and a point of length 6. -/
theorem transform_roundtrip_witness :
    LayoutWF ([[2, 2], [2]].zip [4, 2]) ∧
      ([1, 2, 3, 4, 5, 6] : List Rat).length = totalSize [[2, 2], [2]] [4, 2] ∧
      ∃ groups, transformWeightVecToList [[2, 2], [2]] [4, 2] [1, 2, 3, 4, 5, 6] =
          some groups ∧
        (groups.map NPArray.data).flatten = [1, 2, 3, 4, 5, 6] :=
  ⟨by decide, by decide,
    transform_roundtrip [[2, 2], [2]] [4, 2] [1, 2, 3, 4, 5, 6] (by decide) (by decide)⟩

/-- **C7, counterexample.**  `GeneticNN.__init__` performs no validation:
constructing the optimizer with an interval whose `low` exceeds its `high`
and a partition count of 0 succeeds (the body is three attribute
assignments with no raise path). -/
theorem init_no_validation_counterexample :
    (SearchInterval.mk 1 0).high < (SearchInterval.mk 1 0).low ∧
      (Config.mk 0 15 150).numOfIntervalPartitions ≤ 0 ∧
      GeneticNN.init (SearchInterval.mk 1 0) (Config.mk 0 15 150) =
        Except.ok (GeneticNN.mk (SearchInterval.mk 1 0) (Config.mk 0 15 150)) := by
  refine ⟨by norm_num, by decide, rfl⟩

/-- **C7, amended.**  Construction never fails: `__init__` stores the
interval and the config verbatim, accepting any partition count and any
interval, malformed or not; the number of refinement rounds is an argument
of `tuneParameters`, not of construction, so it cannot be rejected at
construction either. -/
theorem init_accepts_everything (interval : SearchInterval) (config : Config) :
    GeneticNN.init interval config =
      Except.ok { searchInterval := interval, config := config } :=
  rfl

/-- The running best across rounds: the individual, its fitness, and the
point it resolved to against the intervals of the round it was found in
(the mutable triple `bestParams`, `bestFitness`, `bestPoint`). -/
structure Best where
  params : List Bool
  fitness : Rat
  point : List Rat
deriving DecidableEq

/-- The update at lines 58-61 of `GeneticNN.py`:
`if bestFitness is None or currentBestFitness < bestFitness`, replace the
triple, otherwise keep it. -/
def updateBest (best : Option Best) (cand : Best) : Option Best :=
  match best with
  | none => some cand
  | some b => if cand.fitness < b.fitness then some cand else some b

/-- Lines 68-70: narrow every parameter's interval using the corresponding
bit of the round's best individual as sub-partition selector (a Python
boolean multiplies as 0/1); `zip` truncates to the shorter list. -/
def narrowAll (g : GeneticNN) (searchIntervals : List SearchInterval)
    (currentBestParams : List Bool) : List SearchInterval :=
  (searchIntervals.zip currentBestParams).map fun p =>
    g.getSubInterval p.1 (if p.2 then 1 else 0)

/-- One iteration of the `for iteration in range(numberOfIterations)` loop,
given the `(bestIndividual, bestFitness)` pair the external engine hands
back this round: resolve the point against the current intervals, update
the running best, then narrow the intervals. -/
def tuneStep (g : GeneticNN) (result : List Bool × Rat)
    (st : List SearchInterval × Option Best) :
    List SearchInterval × Option Best :=
  (narrowAll g st.1 result.1,
    updateBest st.2
      (Best.mk result.1 result.2
        (GeneticNN.getPoint result.1 st.1 g.config.numOfIntervalPartitions)))

/-- The whole iteration loop over the sequence of per-round engine results. -/
def tuneLoop (g : GeneticNN) :
    List (List Bool × Rat) → List SearchInterval × Option Best →
      List SearchInterval × Option Best
  | [], st => st
  | r :: rest, st => tuneLoop g rest (tuneStep g r st)

/-- `GeneticNN.tuneParameters(self, model, dataLabelGenerator,
numberOfIterations)`, returning the argument of the final
`model.updateParameters(evaluator.transformWeightVecToList(bestPoint))`
call — the parameters installed into the model when the run completes.
`parametersInfoList` is what `model.getParametersInfoList()` returned;
`roundResults` is the per-round sequence of `GA.getBestSubsetAllTimes()`
results of the external engine, one entry per iteration.  `none` models
the run ending in a raised exception (zero iterations leave `bestPoint =
None`, and a reshape mismatch raises). -/
def GeneticNN.tuneParameters (g : GeneticNN)
    (parametersInfoList : List (List Nat × Nat))
    (roundResults : List (List Bool × Rat)) : Option (List NPArray) :=
  let weightsSizesList := parametersInfoList.map Prod.snd
  let weightsShapesList := parametersInfoList.map Prod.fst
  let numberOfParameters := weightsSizesList.sum
  let searchIntervals := List.replicate numberOfParameters g.searchInterval
  match (tuneLoop g roundResults (searchIntervals, none)).2 with
  | none => none
  | some b => transformWeightVecToList weightsShapesList weightsSizesList b.point

/-- The per-round `(individual, fitness, point)` triples, computed
independently of the best-tracking: each round's point is resolved against
the intervals as narrowed by all preceding rounds. -/
def roundPoints (g : GeneticNN) :
    List (List Bool × Rat) → List SearchInterval → List Best
  | [], _ => []
  | r :: rest, intervals =>
    Best.mk r.1 r.2
        (GeneticNN.getPoint r.1 intervals g.config.numOfIntervalPartitions) ::
      roundPoints g rest (narrowAll g intervals r.1)

/-- The best triple across a list of rounds, first strictly better wins. -/
def bestOfRounds (rounds : List Best) : Option Best :=
  rounds.foldl updateBest none

/-- The running best after the first `k` rounds of the loop. -/
def bestAfter (g : GeneticNN) (roundResults : List (List Bool × Rat))
    (searchIntervals : List SearchInterval) (k : Nat) : Option Best :=
  (tuneLoop g (roundResults.take k) (searchIntervals, none)).2

theorem tuneStep_snd (g : GeneticNN) (r : List Bool × Rat)
    (st : List SearchInterval × Option Best) :
    (tuneStep g r st).2 =
      updateBest st.2 (Best.mk r.1 r.2
        (GeneticNN.getPoint r.1 st.1 g.config.numOfIntervalPartitions)) := rfl

theorem tuneLoop_snd (g : GeneticNN) :
    ∀ (rs : List (List Bool × Rat)) (ivs : List SearchInterval) (best : Option Best),
      (tuneLoop g rs (ivs, best)).2 = (roundPoints g rs ivs).foldl updateBest best := by
  intro rs
  induction rs with
  | nil => intro ivs best; rfl
  | cons r rest ih =>
    intro ivs best
    show (tuneLoop g rest (tuneStep g r (ivs, best))).2 = _
    have hstep : tuneStep g r (ivs, best) =
        (narrowAll g ivs r.1,
          updateBest best (Best.mk r.1 r.2
            (GeneticNN.getPoint r.1 ivs g.config.numOfIntervalPartitions))) := rfl
    rw [hstep, ih]
    rfl

theorem tuneLoop_append (g : GeneticNN) (l₁ l₂ : List (List Bool × Rat))
    (st : List SearchInterval × Option Best) :
    tuneLoop g (l₁ ++ l₂) st = tuneLoop g l₂ (tuneLoop g l₁ st) := by
  induction l₁ generalizing st with
  | nil => rfl
  | cons r rest ih =>
    simp only [List.cons_append, tuneLoop]
    exact ih _

theorem updateBest_fitness_le (best : Option Best) (cand : Best) (b : Best)
    (hb : best = some b) :
    ∃ bNext, updateBest best cand = some bNext ∧ bNext.fitness ≤ b.fitness := by
  subst hb
  by_cases hc : cand.fitness < b.fitness
  · exact ⟨cand, by simp [updateBest, hc], le_of_lt hc⟩
  · exact ⟨b, by simp [updateBest, hc], le_refl _⟩

/-- **C1.**  What the final `model.updateParameters` call installs is the
reshape of the best point found across all rounds (general part); in
particular, a single-round run with an engine stub that returns the
all-false individual installs the reshape of the point obtained by
resolving the all-false individual against the initial intervals. -/
theorem tuneParameters_installs_best :
    (∀ (g : GeneticNN) (parametersInfoList : List (List Nat × Nat))
        (roundResults : List (List Bool × Rat)),
      g.tuneParameters parametersInfoList roundResults =
        match bestOfRounds (roundPoints g roundResults
            (List.replicate (parametersInfoList.map Prod.snd).sum g.searchInterval)) with
        | none => none
        | some b => transformWeightVecToList (parametersInfoList.map Prod.fst)
            (parametersInfoList.map Prod.snd) b.point) ∧
    (∀ (g : GeneticNN) (parametersInfoList : List (List Nat × Nat)) (f : Rat),
      g.tuneParameters parametersInfoList
          [(List.replicate (parametersInfoList.map Prod.snd).sum false, f)] =
        transformWeightVecToList (parametersInfoList.map Prod.fst)
          (parametersInfoList.map Prod.snd)
          (GeneticNN.getPoint
            (List.replicate (parametersInfoList.map Prod.snd).sum false)
            (List.replicate (parametersInfoList.map Prod.snd).sum g.searchInterval)
            g.config.numOfIntervalPartitions)) := by
  constructor
  · intro g info rs
    simp only [GeneticNN.tuneParameters, bestOfRounds]
    rw [tuneLoop_snd]
  · intro g info f
    rfl

/-- **C2.**  The running best is replaced exactly when the round's fitness
is strictly lower (or no best exists yet) and retained otherwise, and as a
consequence its fitness is non-increasing from round `k` to round `k + 1`,
for every sequence of rounds. -/
theorem bestResult_fitness_nonincreasing :
    (∀ (b cand : Best), updateBest (some b) cand =
        if cand.fitness < b.fitness then some cand else some b) ∧
    (∀ (g : GeneticNN) (roundResults : List (List Bool × Rat))
        (searchIntervals : List SearchInterval) (k : Nat) (b : Best),
      bestAfter g roundResults searchIntervals k = some b →
      ∃ bNext, bestAfter g roundResults searchIntervals (k + 1) = some bNext ∧
        bNext.fitness ≤ b.fitness) := by
  refine ⟨fun b cand => rfl, ?_⟩
  intro g rs ivs k b hb
  by_cases hk : k < rs.length
  · have htake : rs.take (k + 1) = rs.take k ++ [rs[k]] := by
      rw [List.take_succ, List.getElem?_eq_getElem hk, Option.toList_some]
    have hnext : bestAfter g rs ivs (k + 1) =
        (tuneStep g rs[k] (tuneLoop g (rs.take k) (ivs, none))).2 := by
      rw [bestAfter, htake, tuneLoop_append]
      rfl
    rw [hnext, tuneStep_snd]
    exact updateBest_fitness_le _ _ b hb
  · have htake : rs.take (k + 1) = rs.take k := by
      rw [List.take_of_length_le (by omega), List.take_of_length_le (by omega)]
    rw [bestAfter, htake]
    exact ⟨b, hb, le_refl _⟩

/-- Witness for `bestResult_fitness_nonincreasing`: two concrete rounds
with fitnesses 5 then 7; after round 1 the best has fitness 5, and after
round 2 it still has fitness at most 5. -/
theorem bestResult_fitness_nonincreasing_witness :
    bestAfter gP5 [([true], 5), ([false], 7)] [SearchInterval.mk 0 10] 1 =
        some (Best.mk [true] 5
          (GeneticNN.getPoint [true] [SearchInterval.mk 0 10] 5)) ∧
      ∃ bNext, bestAfter gP5 [([true], 5), ([false], 7)] [SearchInterval.mk 0 10] 2 =
          some bNext ∧ bNext.fitness ≤ (5 : Rat) :=
  ⟨rfl,
    bestResult_fitness_nonincreasing.2 gP5 [([true], 5), ([false], 7)]
      [SearchInterval.mk 0 10] 1
      (Best.mk [true] 5 (GeneticNN.getPoint [true] [SearchInterval.mk 0 10] 5)) rfl⟩
